import Mathlib

/-!
Verification of the current-vector control core for synchronous machine
drives (file `motulator/control/sm/_vector.py`).

The embedding is shallow: Python floats are modelled as real numbers,
Python complex numbers as `ℂ`.  The numpy function `np.sqrt` returns NaN
on a negative argument; NaN is modelled by `Option ℝ` (`none` = NaN) in
the q-axis current-limit pipeline, where the source can actually produce
one.  The lookup tables `i_sd_mtpa`, `tau_M_lim`, `i_sd_lim` are built in
`CurrentReferencePars.__post_init__` from `TorqueCharacteristics`, whose
code lies outside the file under verification; they are modelled as
opaque function-valued fields of the state, exactly as the control loop
sees them.  `tau_M_lim` can be called with `np.inf` (source line 348), so
its argument type is `WithTop ℝ`, the reals extended with `⊤` = infinity.
-/

noncomputable section

namespace Motulator

open ComplexConjugate

/-- Numpy modulo on reals: `np.mod(a, b) = a - b*floor(a/b)`. -/
def npMod (a b : ℝ) : ℝ := a - b * (⌊a / b⌋ : ℤ)

/-- Angle wrapping used at source lines 127 and 511:
`np.mod(theta + pi, 2*pi) - pi`. -/
def wrapAngle (theta : ℝ) : ℝ := npMod (theta + Real.pi) (2 * Real.pi) - Real.pi

/-- Numpy square root: NaN (modelled as `none`) on a negative argument. -/
def npSqrt (x : ℝ) : Option ℝ := if 0 ≤ x then some (Real.sqrt x) else none

/-- Numpy minimum of a pair, propagating NaN (`np.min([a, b])`). -/
def npMin : Option ℝ → Option ℝ → Option ℝ
  | some a, some b => some (min a b)
  | _, _ => none

/-- State and parameters of `CurrentReference` (source lines 266-319).
The machine parameters are copied from `ModelPars` in `__init__`; the
pole-pair count `n_p` is an integer in the source, carried here as a
real number since it only ever enters real arithmetic.  The three lookup
functions are the precomputed MTPA / merged-MTPV-and-current-limit
tables of `CurrentReferencePars`. -/
structure CurrentReference where
  n_p : ℝ
  L_d : ℝ
  L_q : ℝ
  psi_f : ℝ
  i_sd_mtpa : ℝ → ℝ
  tau_M_lim : WithTop ℝ → ℝ
  i_sd_lim : ℝ → ℝ
  psi_s_min : ℝ
  i_s_max : ℝ
  k_fw : ℝ
  k_u : ℝ
  i_sd_ref : ℝ

/-- Inner function `limit_torque` of `CurrentReference.output`
(source lines 343-353): at nonzero speed the torque bound is the limit
table evaluated at the flux that the voltage budget allows; at zero
speed it is evaluated at infinite flux (`np.inf`). -/
def CurrentReference.limit_torque
    (s : CurrentReference) (tau_M_ref w_m u_dc : ℝ) : ℝ :=
  let tau_M_max : ℝ :=
    if |w_m| > 0 then
      s.tau_M_lim ((s.k_u * u_dc / Real.sqrt 3 / |w_m| : ℝ) : WithTop ℝ)
    else
      s.tau_M_lim ⊤
  if |tau_M_ref| > tau_M_max then Real.sign tau_M_ref * tau_M_max else tau_M_ref

/-- Total flux `psi_t = psi_f + (L_d - L_q)*i_sd_ref` (source line 359). -/
def CurrentReference.psi_t (s : CurrentReference) : ℝ :=
  s.psi_f + (s.L_d - s.L_q) * s.i_sd_ref

/-- Unlimited q-axis current reference (source line 360), with the
division-by-zero guard `if psi_t != 0 else 0`.  The argument `tau` is the
already-limited torque reference. -/
def CurrentReference.i_sq_unclamped (s : CurrentReference) (tau : ℝ) : ℝ :=
  if s.psi_t ≠ 0 then tau / (1.5 * s.n_p * s.psi_t) else 0

/-- The q-axis current bound (source lines 364-367):
`np.min([sqrt(i_s_max^2 - i_sd_ref^2), sqrt(i_s_max^2 - i_sd_mtpa^2)])`,
with numpy semantics: a negative radicand makes `np.sqrt` return NaN
(`none`), which `np.min` propagates. -/
def CurrentReference.i_sq_maxNaN (s : CurrentReference) (tau : ℝ) : Option ℝ :=
  npMin (npSqrt (s.i_s_max ^ 2 - s.i_sd_ref ^ 2))
    (npSqrt (s.i_s_max ^ 2 - s.i_sd_mtpa |tau| ^ 2))

/-- The clamped q-axis current reference (source lines 368-369).  When the
bound is NaN, the comparison `np.abs(i_sq_ref) > i_sq_max` is false (any
comparison against NaN is false), so the clamp is skipped and the
unclamped value is kept. -/
def CurrentReference.i_sq_limited (s : CurrentReference) (tau : ℝ) : ℝ :=
  match s.i_sq_maxNaN tau with
  | none => s.i_sq_unclamped tau
  | some m =>
      if |s.i_sq_unclamped tau| > m then Real.sign (s.i_sq_unclamped tau) * m
      else s.i_sq_unclamped tau

/-- Method `CurrentReference.output` (source lines 321-377): limit the
torque reference, form the q-axis current reference, clamp it, and return
the current reference `i_sd_ref + 1j*i_sq_ref` together with the realized
torque `1.5*n_p*psi_t*i_sq_ref`. -/
def CurrentReference.output
    (s : CurrentReference) (tau_M_ref w_m u_dc : ℝ) : ℂ × ℝ :=
  let tau := s.limit_torque tau_M_ref w_m u_dc
  ((s.i_sd_ref : ℂ) + Complex.I * (s.i_sq_limited tau : ℂ),
    1.5 * s.n_p * s.psi_t * s.i_sq_limited tau)

/-- State-passing form of `output`.  The source method (lines 321-377)
only reads `self` and assigns no attribute, so the post-state equals the
pre-state. -/
def CurrentReference.outputS
    (s : CurrentReference) (tau_M_ref w_m u_dc : ℝ) :
    (ℂ × ℝ) × CurrentReference :=
  (s.output tau_M_ref w_m u_dc, s)

/-- Method `CurrentReference.update` (source lines 379-401): integrate the
d-axis current against the voltage margin, then apply the anti-windup
clamp `np.clip(i_sd_ref, i_sd_lim, i_sd_mtpa)`, which numpy evaluates as
`min(max(x, lo), hi)`. -/
def CurrentReference.update
    (s : CurrentReference) (T_s tau_M_ref_lim : ℝ) (u_s_ref : ℂ)
    (u_dc : ℝ) : CurrentReference :=
  let u_s_max := s.k_u * u_dc / Real.sqrt 3
  let i_sd_unclipped := s.i_sd_ref + T_s * s.k_fw * (u_s_max - Complex.abs u_s_ref)
  let lo := s.i_sd_lim |tau_M_ref_lim|
  let hi := s.i_sd_mtpa |tau_M_ref_lim|
  { s with i_sd_ref := min (max i_sd_unclipped lo) hi }

/-- State and parameters of `Observer` (source lines 405-468).  The field
`k1` is the speed-dependent gain function.  The attribute `self.k2` set
in `__init__` is never read by the sensorless update (which recomputes
the complex gain locally, lines 495-496), so it is not carried here; in
the sensored branch its very construction raises, see `Observer.init`. -/
structure Observer where
  R_s : ℝ
  L_d : ℝ
  L_q : ℝ
  psi_f : ℝ
  alpha_o : ℝ
  k1 : ℝ → ℝ
  theta_m : ℝ
  w_m : ℝ
  psi_s : ℂ

/-- Message of the Python TypeError raised by `0*self.k1` at source line
466, which multiplies the integer 0 by a function object. -/
def sensoredInitError : String :=
  "TypeError: unsupported operand types for *: int and function"

/-- Constructor `Observer.__init__` (source lines 451-468).  In the
sensorless branch the default gain is
`sigma0 + 0.2*|w_m|` with `sigma0 = 0.25*R_s*(L_d+L_q)/(L_d*L_q)`, and
the initial state is `theta_m = 0`, `w_m = 0`, `psi_s = psi_f`.  In the
sensored branch (`sensorless=False`) the source executes
`self.k2 = 0*self.k1` where `self.k1` is a function object; Python raises
TypeError when multiplying an int by a function, so construction fails
whether or not a gain override `k` is supplied.  Failure is modelled with
`Except`. -/
def Observer.init (R_s L_d L_q psi_f alpha_o : ℝ) (k : Option (ℝ → ℝ))
    (sensorless : Bool) : Except String Observer :=
  match sensorless with
  | true =>
      let k1 : ℝ → ℝ :=
        match k with
        | some g => g
        | none => fun w_m => 0.25 * R_s * (L_d + L_q) / (L_d * L_q) + 0.2 * |w_m|
      Except.ok
        { R_s := R_s, L_d := L_d, L_q := L_q, psi_f := psi_f,
          alpha_o := alpha_o, k1 := k1, theta_m := 0, w_m := 0,
          psi_s := (psi_f : ℂ) }
  | false => Except.error sensoredInitError

/-- Method `Observer.update` in the sensorless mode (source lines
470-511, with the `if self.sensorless` branch taken; the sensored branch
is unreachable because sensored construction already raises, see
`Observer.init`).  All right-hand sides read the pre-call state, exactly
as in the source, where `psi_s` is updated first from the old `psi_s`,
then `w_m` from the precomputed `eps`, then `theta_m` from the
precomputed `w_s`. -/
def Observer.update (o : Observer) (T_s : ℝ) (u_s i_s : ℂ) : Observer :=
  let e : ℂ := ((o.L_d * i_s.re : ℝ) : ℂ) + Complex.I * ((o.L_q * i_s.im : ℝ) : ℂ)
    + ((o.psi_f : ℝ) : ℂ) - o.psi_s
  let psi_a : ℂ := ((o.psi_f : ℝ) : ℂ) + ((o.L_d - o.L_q : ℝ) : ℂ) * conj i_s
  let k1 : ℝ := o.k1 o.w_m
  let k2 : ℂ := if Complex.abs psi_a > 0 then (k1 : ℂ) * psi_a / conj psi_a else (k1 : ℂ)
  let eps : ℝ := if Complex.abs psi_a > 0 then -(e / psi_a).im else 0
  let w_s : ℝ := 2 * o.alpha_o * eps + o.w_m
  { o with
    psi_s := o.psi_s + (T_s : ℂ) * (u_s - (o.R_s : ℂ) * i_s
      - Complex.I * (w_s : ℂ) * o.psi_s + (k1 : ℂ) * e + k2 * conj e),
    w_m := o.w_m + T_s * o.alpha_o ^ 2 * eps,
    theta_m := wrapAngle (o.theta_m + T_s * w_s) }

/-- Reference definition of the sensorless observer step, transcribed
from the specification text (spec section 4.1, steps 1-4): residual,
auxiliary flux, estimation-error angle, speed update law, gains, then the
forward-Euler flux step and the speed step.  Returns the pair
(new flux estimate, new speed estimate). -/
def specObserverStep (o : Observer) (T_s : ℝ) (u_s i_s : ℂ) : ℂ × ℝ :=
  let e : ℂ := ((o.L_d * i_s.re : ℝ) : ℂ) + Complex.I * ((o.L_q * i_s.im : ℝ) : ℂ)
    + ((o.psi_f : ℝ) : ℂ) - o.psi_s
  let psi_a : ℂ := ((o.psi_f : ℝ) : ℂ) + ((o.L_d - o.L_q : ℝ) : ℂ) * conj i_s
  let eps : ℝ := if Complex.abs psi_a > 0 then -(e / psi_a).im else 0
  let w_s : ℝ := 2 * o.alpha_o * eps + o.w_m
  let k1 : ℝ := o.k1 o.w_m
  let k2 : ℂ := if Complex.abs psi_a > 0 then (k1 : ℂ) * psi_a / conj psi_a else (k1 : ℂ)
  (o.psi_s + (T_s : ℂ) * (u_s - (o.R_s : ℂ) * i_s - Complex.I * (w_s : ℂ) * o.psi_s
      + (k1 : ℂ) * e + k2 * conj e),
    o.w_m + T_s * o.alpha_o ^ 2 * eps)

/-- Operations of the collaborators that `VectorCtrl.__call__` invokes
but whose code lives outside the file under verification
(`SpeedCtrl`, `ComplexPICtrl`, `PWM`, `Clock` in `control/_common.py`,
`abc2complex` in `_helpers.py`).  They are carried as opaque function
values over abstract state types `S` (speed controller), `C` (current
controller) and `P` (PWM), so the orchestration theorem holds for every
choice of their behaviour. -/
structure SubCtrlOps (S C P : Type) where
  speed_output : S → ℝ → ℝ → ℝ
  speed_update : S → ℝ → ℝ → S
  cc_output : C → ℂ → ℂ → ℂ
  cc_update : C → ℝ → ℂ → ℝ → C
  pwm_realized : P → ℂ
  pwm_call : P → ℝ → ℂ → ℝ → ℝ → ℝ → (Fin 3 → ℝ) × P
  clock_update : ℝ → ℝ → ℝ
  abc2complex : (Fin 3 → ℝ) → ℂ

/-- State of `VectorCtrl` (source lines 44-93).  In the sensored mode the
source stores `None` in `self.observer` and never touches it; the field
here is then simply inert. -/
structure VectorCtrl (S C P : Type) where
  T_s : ℝ
  sensorless : Bool
  n_p : ℝ
  current_ref : CurrentReference
  observer : Observer
  speed_ctrl : S
  current_ctrl : C
  pwm : P
  t : ℝ
  w_m_ref : ℝ → ℝ

/-- Feedback signals measured from the plant at the top of
`VectorCtrl.__call__` (source lines 116-118, 125-126). -/
structure Feedback where
  i_s_abc : Fin 3 → ℝ
  u_dc : ℝ
  w_M : ℝ
  theta_M : ℝ

/-- Method `VectorCtrl.__call__` (source lines 96-161), one control tick:
read the feedback, resolve speed and angle, rotate the current, run the
three output computations, then perform the five state updates, and
finally call the modulator.  The data-logging call (lines 138-149) goes
to an external sink and carries no control state, so it is omitted. -/
def VectorCtrl.step {S C P : Type} (ops : SubCtrlOps S C P)
    (c : VectorCtrl S C P) (fb : Feedback) :
    (ℝ × (Fin 3 → ℝ)) × VectorCtrl S C P :=
  let w_m_ref := c.w_m_ref c.t
  let u_dc := fb.u_dc
  let u_s := ops.pwm_realized c.pwm
  let w_m := if c.sensorless then c.observer.w_m else c.n_p * fb.w_M
  let theta_m :=
    if c.sensorless then c.observer.theta_m else wrapAngle (c.n_p * fb.theta_M)
  let i_s := Complex.exp (-Complex.I * (theta_m : ℂ)) * ops.abc2complex fb.i_s_abc
  let tau_M_ref := ops.speed_output c.speed_ctrl (w_m_ref / c.n_p) (w_m / c.n_p)
  let outp := c.current_ref.output tau_M_ref w_m u_dc
  let i_s_ref := outp.1
  let tau_M_ref_lim := outp.2
  let u_s_ref := ops.cc_output c.current_ctrl i_s_ref i_s
  let observer1 := if c.sensorless then c.observer.update c.T_s u_s i_s else c.observer
  let speed_ctrl1 := ops.speed_update c.speed_ctrl c.T_s tau_M_ref_lim
  let current_ref1 := c.current_ref.update c.T_s tau_M_ref_lim u_s_ref u_dc
  let current_ctrl1 := ops.cc_update c.current_ctrl c.T_s u_s w_m
  let t1 := ops.clock_update c.t c.T_s
  let pwmres := ops.pwm_call c.pwm c.T_s u_s_ref u_dc theta_m w_m
  ((c.T_s, pwmres.1),
    { c with
      observer := observer1, speed_ctrl := speed_ctrl1,
      current_ref := current_ref1, current_ctrl := current_ctrl1,
      pwm := pwmres.2, t := t1 })

/-! ## Helper lemmas -/

theorem npMod_nonneg (a : ℝ) {b : ℝ} (hb : 0 < b) : 0 ≤ npMod a b := by
  have h := Int.sub_floor_div_mul_nonneg a hb
  unfold npMod
  linarith

theorem npMod_lt (a : ℝ) {b : ℝ} (hb : 0 < b) : npMod a b < b := by
  have h := Int.sub_floor_div_mul_lt a hb
  unfold npMod
  linarith

theorem wrapAngle_mem_Ico (theta : ℝ) :
    wrapAngle theta ∈ Set.Ico (-Real.pi) Real.pi := by
  have h1 := npMod_nonneg (theta + Real.pi) Real.two_pi_pos
  have h2 := npMod_lt (theta + Real.pi) Real.two_pi_pos
  simp only [Set.mem_Ico, wrapAngle]
  constructor <;> linarith

theorem wrapAngle_pi : wrapAngle Real.pi = -Real.pi := by
  have h2 : (2 : ℝ) * Real.pi ≠ 0 := ne_of_gt Real.two_pi_pos
  unfold wrapAngle npMod
  rw [show Real.pi + Real.pi = 2 * Real.pi by ring, div_self h2]
  norm_num

theorem abs_realSign_le_one (x : ℝ) : |Real.sign x| ≤ 1 := by
  rcases Real.sign_apply_eq x with h | h | h <;> rw [h] <;> norm_num

theorem realSign_mul_self (x : ℝ) : Real.sign x * x = |x| := by
  rcases lt_trichotomy x 0 with h | h | h
  · rw [Real.sign_of_neg h, abs_of_neg h]; ring
  · rw [h, Real.sign_zero, abs_zero, mul_zero]
  · rw [Real.sign_of_pos h, abs_of_pos h]; ring

/-! ## Claims -/

/-- C1: In sensorless mode, `Observer.update` computes exactly the
reference definition of the spec: the residual `e`, the auxiliary flux
`psi_a`, the estimation-error angle `eps` (0 when `|psi_a| = 0`), the
speed `w_s = 2*alpha_o*eps + w_m`, the gains `k1 = k(w_m)` and
`k2 = k1*psi_a/conj(psi_a)` (falling back to `k1` when `|psi_a| = 0`),
then the forward-Euler flux step and the speed step
`w_m += T_s*alpha_o^2*eps`. -/
theorem observer_update_matches_spec (o : Observer) (T_s : ℝ) (u_s i_s : ℂ) :
    ((o.update T_s u_s i_s).psi_s, (o.update T_s u_s i_s).w_m) =
      specObserverStep o T_s u_s i_s := rfl

/-- C2: within one invocation of the control loop, the three output
computations (speed controller, current reference, current controller)
are evaluated against the pre-invocation state, and each state mutation
(observer, speed controller, current reference, current controller,
clock) receives only the sampling period, this-tick feedback and outputs
already computed from that pre-invocation state; the post-state is built
from these updates alone. -/
theorem step_outputs_before_updates {S C P : Type} (ops : SubCtrlOps S C P)
    (c : VectorCtrl S C P) (fb : Feedback) :
    (let w_m := if c.sensorless then c.observer.w_m else c.n_p * fb.w_M;
     let theta_m := if c.sensorless then c.observer.theta_m
       else wrapAngle (c.n_p * fb.theta_M);
     let i_s := Complex.exp (-Complex.I * (theta_m : ℂ)) * ops.abc2complex fb.i_s_abc;
     let tau_M_ref := ops.speed_output c.speed_ctrl (c.w_m_ref c.t / c.n_p) (w_m / c.n_p);
     let outp := c.current_ref.output tau_M_ref w_m fb.u_dc;
     let u_s_ref := ops.cc_output c.current_ctrl outp.1 i_s;
     (VectorCtrl.step ops c fb).2.observer =
        (if c.sensorless then c.observer.update c.T_s (ops.pwm_realized c.pwm) i_s
         else c.observer) ∧
     (VectorCtrl.step ops c fb).2.speed_ctrl =
        ops.speed_update c.speed_ctrl c.T_s outp.2 ∧
     (VectorCtrl.step ops c fb).2.current_ref =
        c.current_ref.update c.T_s outp.2 u_s_ref fb.u_dc ∧
     (VectorCtrl.step ops c fb).2.current_ctrl =
        ops.cc_update c.current_ctrl c.T_s (ops.pwm_realized c.pwm) w_m ∧
     (VectorCtrl.step ops c fb).2.t = ops.clock_update c.t c.T_s) :=
  ⟨rfl, rfl, rfl, rfl, rfl⟩

/-- Concrete observer state used to exhibit the angle-wrap boundary
case: the wrap from `theta_m = 0`, `w_m = pi` lands on `-pi` exactly. -/
def oEx : Observer :=
  { R_s := 0, L_d := 1, L_q := 1, psi_f := 0, alpha_o := 0,
    k1 := fun _ => 0, theta_m := 0, w_m := Real.pi, psi_s := 0 }

/-- C4 counterexample: from `theta_m = 0`, `w_m = pi` with `T_s = 1` and
`u_s = i_s = 0`, `Observer.update` produces `theta_m = -pi`, which is
outside the claimed interval `(-pi, pi]` (the source wraps into
`[-pi, pi)`, as its own comment on line 510 states). -/
theorem observer_theta_escapes_Ioc :
    (oEx.update 1 0 0).theta_m ∉ Set.Ioc (-Real.pi) Real.pi := by
  have h : (oEx.update 1 0 0).theta_m = wrapAngle Real.pi := by
    simp [Observer.update, oEx]
  rw [h, wrapAngle_pi]
  simp

/-- C4 (amended): after every observer update, and after the sensored
angle resolution of the orchestrator, the rotor angle lies in the
half-open interval `[-pi, pi)` (the claimed `(-pi, pi]` fails exactly at
the boundary point `-pi`). -/
theorem observer_theta_mem_Ico :
    (∀ (o : Observer) (T_s : ℝ) (u_s i_s : ℂ),
        (o.update T_s u_s i_s).theta_m ∈ Set.Ico (-Real.pi) Real.pi) ∧
      ∀ (n_p theta_M : ℝ),
        wrapAngle (n_p * theta_M) ∈ Set.Ico (-Real.pi) Real.pi :=
  ⟨fun _ _ _ _ => wrapAngle_mem_Ico _, fun _ _ => wrapAngle_mem_Ico _⟩

/-- C8: constructing an `Observer` in sensored mode does not succeed:
source line 466 executes `0*self.k1` with `self.k1` a function object,
which raises a Python TypeError before any state is created, so the
documented sensored-mode behaviour (fixed gain, `k2 = 0`, no exception)
is unreachable. -/
theorem observer_sensored_init_raises :
    Observer.init 3.6 0.036 0.051 0.545 (2 * Real.pi * 40) none false =
      Except.error sensoredInitError := rfl

/-- C9: `CurrentReference.output` mutates no state: the post-state of a
call equals the pre-state, and a second call with identical arguments
from that post-state returns the identical result. -/
theorem output_no_mutation (s : CurrentReference) (tau_M_ref w_m u_dc : ℝ) :
    (s.outputS tau_M_ref w_m u_dc).2 = s ∧
      ((s.outputS tau_M_ref w_m u_dc).2.outputS tau_M_ref w_m u_dc).1 =
        (s.outputS tau_M_ref w_m u_dc).1 :=
  ⟨rfl, rfl⟩

/-! ## The q-axis current bound pipeline -/

theorem i_sq_maxNaN_eq (s : CurrentReference) (tau : ℝ) :
    s.i_sq_maxNaN tau =
      if 0 ≤ s.i_s_max ^ 2 - s.i_sd_ref ^ 2 ∧
          0 ≤ s.i_s_max ^ 2 - s.i_sd_mtpa |tau| ^ 2 then
        some (min (Real.sqrt (s.i_s_max ^ 2 - s.i_sd_ref ^ 2))
          (Real.sqrt (s.i_s_max ^ 2 - s.i_sd_mtpa |tau| ^ 2)))
      else none := by
  unfold CurrentReference.i_sq_maxNaN npSqrt npMin
  by_cases h1 : 0 ≤ s.i_s_max ^ 2 - s.i_sd_ref ^ 2 <;>
    by_cases h2 : 0 ≤ s.i_s_max ^ 2 - s.i_sd_mtpa |tau| ^ 2 <;>
    simp [h1, h2]

theorem i_sq_maxNaN_some_nonneg (s : CurrentReference) (tau : ℝ) {m : ℝ}
    (h : s.i_sq_maxNaN tau = some m) : 0 ≤ m := by
  rw [i_sq_maxNaN_eq] at h
  split at h
  · injection h with h
    rw [← h]
    exact le_min (Real.sqrt_nonneg _) (Real.sqrt_nonneg _)
  · exact absurd h (by simp)

theorem i_sq_limited_of_unclamped_zero (s : CurrentReference) (tau : ℝ)
    (h : s.i_sq_unclamped tau = 0) : s.i_sq_limited tau = 0 := by
  unfold CurrentReference.i_sq_limited
  cases hM : s.i_sq_maxNaN tau with
  | none => exact h
  | some m =>
      have hm0 : 0 ≤ m := i_sq_maxNaN_some_nonneg s tau hM
      rw [h, abs_zero]
      show (if (0:ℝ) > m then Real.sign 0 * m else 0) = 0
      rw [if_neg (not_lt.mpr hm0)]

/-- C5: the division-by-zero conditions of `CurrentReference.output`
resolve to defined fallbacks: with zero total flux the q-axis current
reference is 0, so the returned current reference is purely d-axis; and
at zero speed the torque limit is evaluated on the infinite-flux branch
of the lookup, making the whole output independent of the DC-bus
voltage. -/
theorem output_division_fallbacks (s s2 : CurrentReference)
    (tau w u tau2 u1 u2 : ℝ) (hpsi : s.psi_t = 0) :
    s.i_sq_limited (s.limit_torque tau w u) = 0 ∧
      (s.output tau w u).1 = (s.i_sd_ref : ℂ) ∧
      s2.limit_torque tau2 0 u1 =
        (if |tau2| > s2.tau_M_lim ⊤ then Real.sign tau2 * s2.tau_M_lim ⊤
         else tau2) ∧
      s2.output tau2 0 u1 = s2.output tau2 0 u2 := by
  have hz : s.i_sq_unclamped (s.limit_torque tau w u) = 0 := by
    unfold CurrentReference.i_sq_unclamped
    simp [hpsi]
  have h0 := i_sq_limited_of_unclamped_zero s _ hz
  refine ⟨h0, ?_, ?_, ?_⟩
  · show (s.i_sd_ref : ℂ) +
        Complex.I * (s.i_sq_limited (s.limit_torque tau w u) : ℂ) = _
    rw [h0]
    simp
  · unfold CurrentReference.limit_torque
    simp
  · unfold CurrentReference.output CurrentReference.limit_torque
    simp

/-- Concrete current-reference state with zero total flux
(`psi_f = 0`, `L_d = L_q`). -/
def crZeroFlux : CurrentReference :=
  { n_p := 3, L_d := 0.036, L_q := 0.036, psi_f := 0,
    i_sd_mtpa := fun _ => 0, tau_M_lim := fun _ => 1, i_sd_lim := fun _ => 0,
    psi_s_min := 0, i_s_max := 1, k_fw := 1, k_u := 0.95, i_sd_ref := 0 }

/-- Witness for C5 at the concrete zero-total-flux state. -/
theorem output_division_fallbacks_witness :
    crZeroFlux.psi_t = 0 ∧
      (crZeroFlux.i_sq_limited (crZeroFlux.limit_torque 5 1 540) = 0 ∧
        (crZeroFlux.output 5 1 540).1 = (crZeroFlux.i_sd_ref : ℂ) ∧
        crZeroFlux.limit_torque 2 0 100 =
          (if |(2:ℝ)| > crZeroFlux.tau_M_lim ⊤ then
            Real.sign 2 * crZeroFlux.tau_M_lim ⊤ else 2) ∧
        crZeroFlux.output 2 0 100 = crZeroFlux.output 2 0 200) := by
  have h : crZeroFlux.psi_t = 0 := by
    norm_num [crZeroFlux, CurrentReference.psi_t]
  exact ⟨h, output_division_fallbacks crZeroFlux crZeroFlux 5 1 540 2 100 200 h⟩

/-- Concrete current-reference state whose d-axis current state exceeds
the current limit, making the first radicand negative. -/
def crOverCurrent : CurrentReference :=
  { n_p := 3, L_d := 0.036, L_q := 0.051, psi_f := 0.545,
    i_sd_mtpa := fun _ => 0, tau_M_lim := fun _ => 1, i_sd_lim := fun _ => -3,
    psi_s_min := 0.545, i_s_max := 1, k_fw := 1, k_u := 0.95, i_sd_ref := 2 }

/-- C6 counterexample: with `i_sd_ref = 2` and `i_s_max = 1` the radicand
`i_s_max^2 - i_sd_ref^2 = -3` is negative and unguarded, so `np.sqrt`
yields NaN and the computed q-axis current bound is NaN (`none`),
refuting the claim that both radicands are floored at zero and the bound
is always a finite real. -/
theorem i_sq_max_nan_at_overcurrent :
    crOverCurrent.i_sq_maxNaN (crOverCurrent.limit_torque 0 0 0) = none := by
  rw [i_sq_maxNaN_eq, if_neg]
  intro hc
  have h1 := hc.1
  norm_num [crOverCurrent] at h1

/-- C6 (amended): the radicands are not protected: whenever the d-axis
state satisfies `i_sd_ref^2 > i_s_max^2`, the first radicand is negative,
`np.sqrt` returns NaN, and the computed q-axis current bound is NaN; the
clamp comparison against NaN is false, so the clamp is skipped and the
returned current reference keeps the unclamped q-axis value (a real
number, since comparisons with NaN silently select it). -/
theorem output_unguarded_radicand (s : CurrentReference) (tau w u : ℝ)
    (h : s.i_s_max ^ 2 < s.i_sd_ref ^ 2) :
    s.i_sq_maxNaN (s.limit_torque tau w u) = none ∧
      (s.output tau w u).1 =
        (s.i_sd_ref : ℂ) +
          Complex.I * (s.i_sq_unclamped (s.limit_torque tau w u) : ℂ) := by
  have hnan : s.i_sq_maxNaN (s.limit_torque tau w u) = none := by
    rw [i_sq_maxNaN_eq, if_neg]
    intro hc
    have h1 := hc.1
    linarith
  refine ⟨hnan, ?_⟩
  show (s.i_sd_ref : ℂ) +
      Complex.I * (s.i_sq_limited (s.limit_torque tau w u) : ℂ) = _
  unfold CurrentReference.i_sq_limited
  rw [hnan]

/-- Witness for the amended C6 at the concrete over-current state. -/
theorem output_unguarded_radicand_witness :
    crOverCurrent.i_s_max ^ 2 < crOverCurrent.i_sd_ref ^ 2 ∧
      (crOverCurrent.i_sq_maxNaN (crOverCurrent.limit_torque 1 1 1) = none ∧
        (crOverCurrent.output 1 1 1).1 =
          (crOverCurrent.i_sd_ref : ℂ) +
            Complex.I *
              (crOverCurrent.i_sq_unclamped
                (crOverCurrent.limit_torque 1 1 1) : ℂ)) := by
  have h : crOverCurrent.i_s_max ^ 2 < crOverCurrent.i_sd_ref ^ 2 := by
    norm_num [crOverCurrent]
  exact ⟨h, output_unguarded_radicand crOverCurrent 1 1 1 h⟩

/-- C7: one field-weakening `update` with positive sampling period and
gain, and a voltage command strictly inside the limit
`u_s_max = k_u*u_dc/sqrt(3)`, never decreases the d-axis current state
unless the anti-windup clamp caps it at its upper bound
`i_sd_mtpa(|tau_M_ref_lim|)`; iterating this gives the claimed
non-decrease over successive calls. -/
theorem update_fw_nondecreasing (s : CurrentReference) (T_s tau u_dc : ℝ)
    (u_s_ref : ℂ) (hT : 0 < T_s) (hk : 0 < s.k_fw)
    (hu : Complex.abs u_s_ref < s.k_u * u_dc / Real.sqrt 3) :
    s.i_sd_ref ≤ (s.update T_s tau u_s_ref u_dc).i_sd_ref ∨
      (s.update T_s tau u_s_ref u_dc).i_sd_ref = s.i_sd_mtpa |tau| := by
  have hgoal : (s.update T_s tau u_s_ref u_dc).i_sd_ref =
      min (max (s.i_sd_ref +
          T_s * s.k_fw * (s.k_u * u_dc / Real.sqrt 3 - Complex.abs u_s_ref))
        (s.i_sd_lim |tau|)) (s.i_sd_mtpa |tau|) := rfl
  rw [hgoal]
  set x := s.i_sd_ref +
    T_s * s.k_fw * (s.k_u * u_dc / Real.sqrt 3 - Complex.abs u_s_ref) with hx
  by_cases hcase : max x (s.i_sd_lim |tau|) ≤ s.i_sd_mtpa |tau|
  · left
    have hstep : 0 < T_s * s.k_fw *
        (s.k_u * u_dc / Real.sqrt 3 - Complex.abs u_s_ref) := by
      apply mul_pos (mul_pos hT hk)
      linarith
    have h1 : s.i_sd_ref ≤ x := by rw [hx]; linarith
    have h2 : x ≤ max x (s.i_sd_lim |tau|) := le_max_left _ _
    rw [min_eq_left hcase]
    linarith
  · right
    exact min_eq_right (le_of_not_le hcase)

/-- Witness for C7 at a concrete state with zero voltage command. -/
theorem update_fw_nondecreasing_witness :
    (0:ℝ) < 1 ∧ 0 < crZeroFlux.k_fw ∧
      Complex.abs 0 < crZeroFlux.k_u * 2 / Real.sqrt 3 ∧
      (crZeroFlux.i_sd_ref ≤ (crZeroFlux.update 1 0 0 2).i_sd_ref ∨
        (crZeroFlux.update 1 0 0 2).i_sd_ref = crZeroFlux.i_sd_mtpa |(0:ℝ)|) := by
  have h1 : (0:ℝ) < 1 := one_pos
  have h2 : 0 < crZeroFlux.k_fw := by norm_num [crZeroFlux]
  have h3 : Complex.abs 0 < crZeroFlux.k_u * 2 / Real.sqrt 3 := by
    rw [map_zero]
    have hs3 : 0 < Real.sqrt 3 := Real.sqrt_pos.mpr (by norm_num)
    have : (0:ℝ) < crZeroFlux.k_u * 2 := by norm_num [crZeroFlux]
    positivity
  exact ⟨h1, h2, h3, update_fw_nondecreasing crZeroFlux 1 0 2 0 h1 h2 h3⟩

/-- C3: if the d-axis state and the MTPA lookup at the (limited) torque
reference are both within the current limit, the returned current
reference has magnitude at most `i_s_max`. -/
theorem output_current_limit (s : CurrentReference) (tau w u : ℝ)
    (hd : |s.i_sd_ref| ≤ s.i_s_max)
    (hm : abs (s.i_sd_mtpa |s.limit_torque tau w u|) ≤ s.i_s_max) :
    Complex.abs (s.output tau w u).1 ≤ s.i_s_max := by
  have hM0 : 0 ≤ s.i_s_max := le_trans (abs_nonneg _) hd
  have hr1 : 0 ≤ s.i_s_max ^ 2 - s.i_sd_ref ^ 2 := by
    have h2 := pow_le_pow_left₀ (abs_nonneg s.i_sd_ref) hd 2
    rw [sq_abs] at h2
    linarith
  have hr2 : 0 ≤ s.i_s_max ^ 2 -
      s.i_sd_mtpa |s.limit_torque tau w u| ^ 2 := by
    have h2 := pow_le_pow_left₀ (abs_nonneg _) hm 2
    rw [sq_abs] at h2
    linarith
  have hbound : s.i_sq_maxNaN (s.limit_torque tau w u) =
      some (min (Real.sqrt (s.i_s_max ^ 2 - s.i_sd_ref ^ 2))
        (Real.sqrt (s.i_s_max ^ 2 -
          s.i_sd_mtpa |s.limit_torque tau w u| ^ 2))) := by
    rw [i_sq_maxNaN_eq, if_pos ⟨hr1, hr2⟩]
  have hqle : |s.i_sq_limited (s.limit_torque tau w u)| ≤
      Real.sqrt (s.i_s_max ^ 2 - s.i_sd_ref ^ 2) := by
    unfold CurrentReference.i_sq_limited
    rw [hbound]
    set m := min (Real.sqrt (s.i_s_max ^ 2 - s.i_sd_ref ^ 2))
      (Real.sqrt (s.i_s_max ^ 2 -
        s.i_sd_mtpa |s.limit_torque tau w u| ^ 2)) with hmdef
    have hmle : m ≤ Real.sqrt (s.i_s_max ^ 2 - s.i_sd_ref ^ 2) :=
      min_le_left _ _
    have hm0 : 0 ≤ m :=
      le_min (Real.sqrt_nonneg _) (Real.sqrt_nonneg _)
    show |(if abs (s.i_sq_unclamped (s.limit_torque tau w u)) > m then
        Real.sign (s.i_sq_unclamped (s.limit_torque tau w u)) * m
      else s.i_sq_unclamped (s.limit_torque tau w u))| ≤ _
    by_cases hc : abs (s.i_sq_unclamped (s.limit_torque tau w u)) > m
    · rw [if_pos hc, abs_mul, abs_of_nonneg hm0]
      have h1 := abs_realSign_le_one (s.i_sq_unclamped (s.limit_torque tau w u))
      have h2 : abs (Real.sign (s.i_sq_unclamped (s.limit_torque tau w u))) *
          m ≤ 1 * m :=
        mul_le_mul_of_nonneg_right h1 hm0
      rw [one_mul] at h2
      linarith
    · rw [if_neg hc]
      push_neg at hc
      linarith
  have hq2 : s.i_sq_limited (s.limit_torque tau w u) ^ 2 ≤
      s.i_s_max ^ 2 - s.i_sd_ref ^ 2 := by
    have h2 := pow_le_pow_left₀ (abs_nonneg _) hqle 2
    rw [sq_abs, Real.sq_sqrt hr1] at h2
    exact h2
  have hform : (s.output tau w u).1 =
      Complex.mk s.i_sd_ref (s.i_sq_limited (s.limit_torque tau w u)) := by
    show (s.i_sd_ref : ℂ) +
        Complex.I * (s.i_sq_limited (s.limit_torque tau w u) : ℂ) = _
    apply Complex.ext <;> simp
  rw [hform, Complex.abs_apply, Complex.normSq_mk]
  have hsum : s.i_sd_ref * s.i_sd_ref +
      s.i_sq_limited (s.limit_torque tau w u) *
        s.i_sq_limited (s.limit_torque tau w u) ≤ s.i_s_max ^ 2 := by
    nlinarith [hq2]
  calc Real.sqrt (s.i_sd_ref * s.i_sd_ref +
        s.i_sq_limited (s.limit_torque tau w u) *
          s.i_sq_limited (s.limit_torque tau w u)) ≤
      Real.sqrt (s.i_s_max ^ 2) := Real.sqrt_le_sqrt hsum
    _ = s.i_s_max := by rw [Real.sqrt_sq hM0]

/-- Witness for C3 at the concrete zero-flux state. -/
theorem output_current_limit_witness :
    |crZeroFlux.i_sd_ref| ≤ crZeroFlux.i_s_max ∧
      abs (crZeroFlux.i_sd_mtpa |crZeroFlux.limit_torque 1 1 1|) ≤
        crZeroFlux.i_s_max ∧
      Complex.abs (crZeroFlux.output 1 1 1).1 ≤ crZeroFlux.i_s_max := by
  have h1 : |crZeroFlux.i_sd_ref| ≤ crZeroFlux.i_s_max := by
    norm_num [crZeroFlux]
  have h2 : abs (crZeroFlux.i_sd_mtpa |crZeroFlux.limit_torque 1 1 1|) ≤
      crZeroFlux.i_s_max := by
    norm_num [crZeroFlux]
  exact ⟨h1, h2, output_current_limit crZeroFlux 1 1 1 h1 h2⟩

/-- The torque-limiting step preserves magnitude and sign of the request
whenever the limit lookup is nonnegative. -/
theorem limit_torque_le (s : CurrentReference) (tau w u : ℝ)
    (hlim : ∀ x, 0 ≤ s.tau_M_lim x) :
    |s.limit_torque tau w u| ≤ |tau| ∧ 0 ≤ s.limit_torque tau w u * tau := by
  unfold CurrentReference.limit_torque
  set m := if |w| > 0 then
      s.tau_M_lim ((s.k_u * u / Real.sqrt 3 / |w| : ℝ) : WithTop ℝ)
    else s.tau_M_lim ⊤ with hm
  have hm0 : 0 ≤ m := by
    rw [hm]
    split <;> exact hlim _
  by_cases hc : |tau| > m
  · rw [if_pos hc]
    constructor
    · rw [abs_mul, abs_of_nonneg hm0]
      have h1 := abs_realSign_le_one tau
      have h2 : |Real.sign tau| * m ≤ 1 * m :=
        mul_le_mul_of_nonneg_right h1 hm0
      rw [one_mul] at h2
      linarith
    · have h3 : Real.sign tau * tau = |tau| := realSign_mul_self tau
      have h4 : (0:ℝ) ≤ m * |tau| := mul_nonneg hm0 (abs_nonneg _)
      calc (0:ℝ) ≤ m * |tau| := h4
        _ = Real.sign tau * m * tau := by rw [← h3]; ring
  · rw [if_neg hc]
    exact ⟨le_refl _, mul_self_nonneg tau⟩

/-- Core of C10: the realized torque `1.5*n_p*psi_t*i_sq` computed from a
limited torque `t` keeps magnitude below and sign consistent with the
original request `tau`, in every branch of the q-axis pipeline. -/
theorem torque_core (s : CurrentReference) (t tau : ℝ)
    (hle : |t| ≤ |tau|) (hsign : 0 ≤ t * tau) :
    |1.5 * s.n_p * s.psi_t * s.i_sq_limited t| ≤ |tau| ∧
      0 ≤ 1.5 * s.n_p * s.psi_t * s.i_sq_limited t * tau := by
  by_cases hpsi : s.psi_t = 0
  · have hz : 1.5 * s.n_p * s.psi_t * s.i_sq_limited t = 0 := by
      rw [hpsi]; ring
    rw [hz]
    exact ⟨by simp, by simp⟩
  · have hterm : s.i_sq_unclamped t = t / (1.5 * s.n_p * s.psi_t) := by
      unfold CurrentReference.i_sq_unclamped
      rw [if_pos hpsi]
    set c := 1.5 * s.n_p * s.psi_t with hc
    by_cases hc0 : c = 0
    · have hq0 : s.i_sq_limited t = 0 :=
        i_sq_limited_of_unclamped_zero s t (by rw [hterm, hc0, div_zero])
      rw [hq0, mul_zero]
      exact ⟨by simp, by simp⟩
    · have hq : s.i_sq_limited t =
          match s.i_sq_maxNaN t with
          | none => t / c
          | some m => if |t / c| > m then Real.sign (t / c) * m else t / c := by
        unfold CurrentReference.i_sq_limited
        rw [hterm]
      have hct : c * (t / c) = t := by field_simp
      cases hM : s.i_sq_maxNaN t with
      | none =>
          have hv : s.i_sq_limited t = t / c := by rw [hq, hM]
          rw [hv, hct]
          exact ⟨hle, hsign⟩
      | some m =>
          have hm0 : 0 ≤ m := i_sq_maxNaN_some_nonneg s t hM
          by_cases hclamp : |t / c| > m
          · have hv : s.i_sq_limited t = Real.sign (t / c) * m := by
              rw [hq, hM]
              exact if_pos hclamp
            have htc0 : t / c ≠ 0 := by
              intro h0
              rw [h0, abs_zero] at hclamp
              exact absurd hclamp (not_lt.mpr hm0)
            have hsabs : |Real.sign (t / c)| = 1 := by
              rcases Real.sign_apply_eq_of_ne_zero (t / c) htc0 with h | h <;>
                rw [h] <;> norm_num
            constructor
            · rw [hv]
              have h1a : |Real.sign (t / c) * m| = m := by
                rw [abs_mul, hsabs, one_mul, abs_of_nonneg hm0]
              have h1 : |c * (Real.sign (t / c) * m)| = |c| * m := by
                rw [abs_mul, h1a]
              rw [h1]
              have h2 : |c| * m ≤ |c| * |t / c| :=
                mul_le_mul_of_nonneg_left (le_of_lt hclamp) (abs_nonneg c)
              have h3 : |c| * |t / c| = |t| := by
                rw [abs_div]
                field_simp
              linarith
            · rw [hv]
              have h1 : 0 ≤ t / c * (c * tau) := by
                have he : t / c * (c * tau) = t * tau := by
                  field_simp
                  ring
                rw [he]
                exact hsign
              rcases lt_trichotomy (t / c) 0 with hr | hr | hr
              · rw [Real.sign_of_neg hr]
                have h2 : c * tau ≤ 0 := by
                  by_contra hpos
                  push_neg at hpos
                  have := mul_neg_of_neg_of_pos hr hpos
                  linarith
                have h5 : 0 ≤ m * -(c * tau) :=
                  mul_nonneg hm0 (neg_nonneg.mpr h2)
                nlinarith
              · exact absurd hr htc0
              · rw [Real.sign_of_pos hr]
                have h2 : 0 ≤ c * tau := by
                  by_contra hneg
                  push_neg at hneg
                  have := mul_neg_of_pos_of_neg hr hneg
                  linarith
                have h5 : 0 ≤ m * (c * tau) := mul_nonneg hm0 h2
                nlinarith
          · have hv : s.i_sq_limited t = t / c := by
              rw [hq, hM]
              exact if_neg hclamp
            rw [hv, hct]
            exact ⟨hle, hsign⟩

/-- C10: provided the torque-limit lookup returns nonnegative values, the
limited torque returned by `output` never exceeds the requested torque in
magnitude and never opposes it in sign. -/
theorem output_torque_consistent (s : CurrentReference) (tau w u : ℝ)
    (hlim : ∀ x, 0 ≤ s.tau_M_lim x) :
    |(s.output tau w u).2| ≤ |tau| ∧ 0 ≤ (s.output tau w u).2 * tau := by
  obtain ⟨hle, hsign⟩ := limit_torque_le s tau w u hlim
  exact torque_core s (s.limit_torque tau w u) tau hle hsign

/-- Witness for C10 at the concrete over-current state with a constant
unity torque-limit lookup. -/
theorem output_torque_consistent_witness :
    (∀ x, 0 ≤ crOverCurrent.tau_M_lim x) ∧
      (|(crOverCurrent.output 2 0 0).2| ≤ |(2:ℝ)| ∧
        0 ≤ (crOverCurrent.output 2 0 0).2 * 2) := by
  have h : ∀ x, 0 ≤ crOverCurrent.tau_M_lim x := by
    intro x
    norm_num [crOverCurrent]
  exact ⟨h, output_torque_consistent crOverCurrent 2 0 0 h⟩

end Motulator
